import Mathlib

/-!
Shallow embedding of the infrared proxy core (package `connection`, file
`connection/connection.go`) together with the parts of the `gateway` and
`protocol` packages that the repository uses but whose sources are not part
of the sample (those are modelled from the specification, as marked).

Go methods that mutate their receiver are embedded as functions from the
receiver state to a pair of (Go-style result, updated state).  Go `(T, error)`
multi-returns become `T × Option GoError`.  The raw byte stream behind a
connection is embedded as a deterministic script of read results plus a log
of written packets, so every definition is executable.
-/

namespace Infrared

/-- Errors of the Go code, as an enumeration of the error values that the
embedded functions can produce.  `errEOF` stands for any end-of-stream or
input-output failure of the underlying socket. -/
inductive GoError where
  | errCantGetHSPacket
  | errNoNameYet
  | errMalformed
  | errEOF
deriving DecidableEq, Repr

/-- Wire packet: `protocol.Packet` has an id and an opaque payload.  Bytes are
natural numbers below 256. -/
structure Packet where
  id : Nat
  data : List Nat
deriving DecidableEq, Repr

/-- Go zero value `protocol.Packet\x7b\x7d`. -/
def Packet.zero : Packet := ⟨0, []⟩

/-- State of the underlying `Connection` that a `BasicPlayerConnection` or a
`BasicServerConn` wraps.  `readScript` lists the Go-style results of the
successive `ReadPacket` calls; an exhausted script reads as end-of-stream.
`writeScript` lists the outcomes of successive `WritePacket` calls (a missing
entry means success); successfully written packets accumulate in
`packetsWritten`. -/
structure ConnState where
  readScript : List (Packet × Option GoError)
  writeScript : List (Option GoError)
  packetsWritten : List Packet
deriving DecidableEq, Repr

/-- One `ReadPacket` call on the underlying connection: consume the next
scripted result. -/
def ConnState.readPacket : ConnState → (Packet × Option GoError) × ConnState
  | ⟨[], ws, log⟩ => ((Packet.zero, some GoError.errEOF), ⟨[], ws, log⟩)
  | ⟨r :: rs, ws, log⟩ => (r, ⟨rs, ws, log⟩)

/-- One `WritePacket` call on the underlying connection: consume the next
scripted outcome; on success the packet is appended to the write log. -/
def ConnState.writePacket (s : ConnState) (p : Packet) : Option GoError × ConnState :=
  match s with
  | ⟨rs, [], log⟩ => (none, ⟨rs, [], log ++ [p]⟩)
  | ⟨rs, some e :: ws, log⟩ => (some e, ⟨rs, ws, log⟩)
  | ⟨rs, none :: ws, log⟩ => (none, ⟨rs, ws, log ++ [p]⟩)

/-- Handshake fields of `handshaking.ServerBoundHandshake`.  The server
address is kept as its sequence of UTF-8 bytes, so equality of addresses is
byte-for-byte equality. -/
structure ServerBoundHandshake where
  protocolVersion : Int
  serverAddress : List Nat
  serverPort : Nat
  nextState : Nat
deriving DecidableEq, Repr

/-- Go zero value of `ServerBoundHandshake`. -/
def ServerBoundHandshake.zero : ServerBoundHandshake := ⟨0, [], 0, 0⟩

/-- Twos-complement reading of a natural number as a signed 32-bit value. -/
def int32OfNat (n : Nat) : Int :=
  if n % 2 ^ 32 < 2 ^ 31 then ((n % 2 ^ 32 : Nat) : Int)
  else ((n % 2 ^ 32 : Nat) : Int) - 2 ^ 32

/-- Modelled from the spec: the variable-length unsigned integer decoder of
the missing `protocol` package, 7 payload bits per byte, continuation bit in
the most significant bit, little-endian groups, capped at 5 bytes; more is a
framing error, as is running out of input. -/
def readVarIntAux (shift acc count : Nat) :
    List Nat → Except GoError (Nat × List Nat)
  | [] => Except.error GoError.errMalformed
  | b :: rest =>
    let v := b % 256
    let acc2 := acc + v % 128 * 2 ^ shift
    if v < 128 then Except.ok (acc2, rest)
    else if 4 ≤ count then Except.error GoError.errMalformed
    else readVarIntAux (shift + 7) acc2 (count + 1) rest

/-- Modelled from the spec: varint decoding entry point. -/
def readVarInt (bs : List Nat) : Except GoError (Nat × List Nat) :=
  readVarIntAux 0 0 0 bs

/-- Modelled from the spec: `handshaking.UnmarshalServerBoundHandshake` of the
missing `protocol/handshaking` package.  Reads, in order, one varint
(protocolVersion), one varint-length-prefixed UTF-8 string (serverAddress),
one unsigned 16-bit big-endian integer (serverPort) and one varint
(nextState); any short read is a malformed-handshake error.  Returned Go
style: the zero handshake together with the error on failure. -/
def UnmarshalServerBoundHandshake (pk : Packet) :
    ServerBoundHandshake × Option GoError :=
  match readVarInt pk.data with
  | Except.error e => (ServerBoundHandshake.zero, some e)
  | Except.ok (pv, r1) =>
    match readVarInt r1 with
    | Except.error e => (ServerBoundHandshake.zero, some e)
    | Except.ok (len, r2) =>
      if len ≤ r2.length then
        let addr := r2.take len
        match r2.drop len with
        | hi :: lo :: r4 =>
          match readVarInt r4 with
          | Except.error e => (ServerBoundHandshake.zero, some e)
          | Except.ok (ns, _) =>
            (⟨int32OfNat pv, addr, hi % 256 * 256 + lo % 256, ns⟩, none)
        | _ => (ServerBoundHandshake.zero, some GoError.errMalformed)
      else (ServerBoundHandshake.zero, some GoError.errMalformed)

/-- State of a `BasicPlayerConnection`: the wrapped connection, the cached
handshake packet, the cached login packet, the cached parsed handshake and
the two cache flags. -/
structure BasicPlayerConnection where
  conn : ConnState
  hsPk : Packet
  loginPk : Packet
  hs : ServerBoundHandshake
  hasHS : Bool
  hasHSPk : Bool
deriving DecidableEq, Repr

/-- Constructor `CreateBasicPlayerConnection`: caches empty, flags false. -/
def CreateBasicPlayerConnection (conn : ConnState) : BasicPlayerConnection :=
  ⟨conn, Packet.zero, Packet.zero, ServerBoundHandshake.zero, false, false⟩

namespace BasicPlayerConnection

/-- Method `ReadPacket`: delegate to the wrapped connection; on error return
the zero packet together with the error. -/
def ReadPacket (c : BasicPlayerConnection) :
    (Packet × Option GoError) × BasicPlayerConnection :=
  let r := c.conn.readPacket
  match r.fst.snd with
  | some e => ((Packet.zero, some e), { c with conn := r.snd })
  | none => ((r.fst.fst, none), { c with conn := r.snd })

/-- Method `WritePacket`: the source returns nil without touching the wrapped
connection. -/
def WritePacket (c : BasicPlayerConnection) (_p : Packet) :
    Option GoError × BasicPlayerConnection :=
  (none, c)

/-- Method `HsPk`: return the cached handshake packet if present, else read
one packet; a read failure surfaces as `errCantGetHSPacket` and nothing is
cached, a success is cached. -/
def HsPk (c : BasicPlayerConnection) :
    (Packet × Option GoError) × BasicPlayerConnection :=
  if c.hasHSPk then ((c.hsPk, none), c)
  else
    let r := c.ReadPacket
    match r.fst.snd with
    | some _ => ((r.fst.fst, some GoError.errCantGetHSPacket), r.snd)
    | none =>
      ((r.fst.fst, none), { r.snd with hsPk := r.fst.fst, hasHSPk := true })

/-- Method `Hs`: return the cached handshake if present, else obtain the
handshake packet via `HsPk`, unmarshal it, cache on success.  The source
assigns the unmarshal result to the `hs` field before checking its error. -/
def Hs (c : BasicPlayerConnection) :
    (ServerBoundHandshake × Option GoError) × BasicPlayerConnection :=
  if c.hasHS then ((c.hs, none), c)
  else
    let r := c.HsPk
    match r.fst.snd with
    | some e => ((r.snd.hs, some e), r.snd)
    | none =>
      let u := UnmarshalServerBoundHandshake r.fst.fst
      match u.snd with
      | some e => ((u.fst, some e), { r.snd with hs := u.fst })
      | none => ((u.fst, none), { r.snd with hs := u.fst, hasHS := true })

/-- Method `Name`: the source unconditionally returns the empty string and
`ErrNoNameYet`. -/
def Name (c : BasicPlayerConnection) :
    (String × Option GoError) × BasicPlayerConnection :=
  (("", some GoError.errNoNameYet), c)

/-- Method `LoginStart`: read one packet, discard the read error, store the
packet in the `loginPk` field and return it with a nil error.  The source has
no cache flag for this field. -/
def LoginStart (c : BasicPlayerConnection) :
    (Packet × Option GoError) × BasicPlayerConnection :=
  let r := c.ReadPacket
  ((r.fst.fst, none), { r.snd with loginPk := r.fst.fst })

end BasicPlayerConnection

/-- RequestType values are Go `int8` values; the named constants. -/
def UnknownRequest : Int := 0

/-- RequestType constant for a status request. -/
def StatusRequest : Int := 1

/-- RequestType constant for a login request. -/
def LoginRequest : Int := 2

/-- Go conversion of an unsigned byte-sized value to `int8`, reducing modulo
256 and reading the result in twos-complement form. -/
def int8OfNat (n : Nat) : Int :=
  if n % 256 < 128 then ((n % 256 : Nat) : Int)
  else ((n % 256 : Nat) : Int) - 256

/-- Function `ParseRequestType`: fetch the handshake (discarding the error)
and cast its `NextState` field to the `RequestType` integer type. -/
def ParseRequestType (c : BasicPlayerConnection) : Int × BasicPlayerConnection :=
  let r := c.Hs
  (int8OfNat r.fst.fst.nextState, r.snd)

/-- Function `ServerAddr`: fetch the handshake, discarding the error, and
return its server address. -/
def ServerAddr (c : BasicPlayerConnection) :
    List Nat × BasicPlayerConnection :=
  let r := c.Hs
  (r.fst.fst.serverAddress, r.snd)

/-- State of a `BasicServerConn`: the wrapped connection and the status
request packet supplied at creation. -/
structure BasicServerConn where
  conn : ConnState
  statusPK : Packet
deriving DecidableEq, Repr

/-- Constructor `CreateBasicServerConn`. -/
def CreateBasicServerConn (conn : ConnState) (pk : Packet) : BasicServerConn :=
  ⟨conn, pk⟩

namespace BasicServerConn

/-- Method `Status`: write the stored status request packet, discarding the
write outcome, then read one packet and return that read result. -/
def Status (c : BasicServerConn) :
    (Packet × Option GoError) × BasicServerConn :=
  let w := c.conn.writePacket c.statusPK
  let r := w.snd.readPacket
  (r.fst, { c with conn := r.snd })

/-- Method `SendPK`: write the given packet and return the write outcome. -/
def SendPK (c : BasicServerConn) (pk : Packet) :
    Option GoError × BasicServerConn :=
  let w := c.conn.writePacket pk
  (w.fst, { c with conn := w.snd })

end BasicServerConn

/-- Backend handle: the tests only observe a backend through its `ID`
string, so a backend is embedded as that identity. -/
structure Server where
  id : String
deriving DecidableEq, Repr

/-- Modelled from the spec: the address-keyed store of the `gateway` package: its
`DefaultServerStore` is not part of the sample (only its tests are).  Its
registry is a map from routing address to backend; the map is embedded as an
association list where the most recent registration of a key shadows older
ones, matching overwrite-on-duplicate. -/
structure DefaultServerStore where
  servers : List (List Nat × Server)
deriving DecidableEq, Repr

/-- Modelled from the spec: registry lookup by exact byte-for-byte key
equality, returning the most recently registered backend for the key. -/
def storeLookup (st : DefaultServerStore) (addr : List Nat) : Option Server :=
  match st.servers.find? (fun e => e.fst = addr) with
  | some e => some e.snd
  | none => none

/-- Modelled from the spec: `AddServer` registers a backend under a routing
address, silently overwriting any previous registration of that address. -/
def AddServer (st : DefaultServerStore) (addr : List Nat) (s : Server) :
    DefaultServerStore :=
  ⟨(addr, s) :: st.servers⟩

/-- Modelled from the spec: `DefaultServerStore.FindServer` reads the
handshake of the connection (discarding the error, as `connection.ServerAddr`
does), extracts the server address and does an exact-match lookup; the
boolean reports whether a backend was found. -/
def FindServer (st : DefaultServerStore) (c : BasicPlayerConnection) :
    (Option Server × Bool) × BasicPlayerConnection :=
  let a := ServerAddr c
  match storeLookup st a.fst with
  | some s => ((some s, true), a.snd)
  | none => ((none, false), a.snd)

/-- One direction of the duplex pipe, function `pipe`: repeatedly read a
chunk from the source and write it to the sink, stopping at the first read
error or write error.  The source is a script of Go-style read results (an
exhausted script means the loop has consumed the whole modelled stream); the
sink is described by the outcome of its successive writes, indexed by write
count, `none` meaning success.  The result is the list of chunks delivered
to the sink, in order. -/
def pipeRun (werr : Nat → Option GoError) :
    List (List Nat × Option GoError) → Nat → List (List Nat)
  | [], _ => []
  | (chunk, re) :: rest, k =>
    match re with
    | some _ => []
    | none =>
      match werr k with
      | some _ => []
      | none => chunk :: pipeRun werr rest (k + 1)

/-- Entry point of one copy-loop direction, write count starting at zero. -/
def pipeDir (reads : List (List Nat × Option GoError))
    (werr : Nat → Option GoError) : List (List Nat) :=
  pipeRun werr reads 0

/-- State of one copy loop in the small-step model of `Pipe`: the remaining
read script, the number of writes performed so far and the chunks delivered
so far. -/
structure LoopState where
  reads : List (List Nat × Option GoError)
  widx : Nat
  out : List (List Nat)
deriving DecidableEq, Repr

/-- Whether a copy loop has ended: its next read fails (or the modelled
stream is exhausted) or its next write would fail. -/
def loopDone (werr : Nat → Option GoError) (ls : LoopState) : Bool :=
  match ls.reads with
  | [] => true
  | (_, some _) :: _ => true
  | (_, none) :: _ =>
    match werr ls.widx with
    | some _ => true
    | none => false

/-- One iteration of a copy loop that has not ended: forward one chunk. -/
def loopStep (werr : Nat → Option GoError) (ls : LoopState) : LoopState :=
  if loopDone werr ls then ls
  else
    match ls.reads with
    | (chunk, none) :: rest => ⟨rest, ls.widx + 1, ls.out ++ [chunk]⟩
    | _ => ls

/-- State of `Pipe(c1, c2)`: the background goroutine running `pipe(c1, c2)`,
the inline loop running `pipe(c2, c1)`, and whether the call to `Pipe` has
returned. -/
structure PipeState where
  bg : LoopState
  inl : LoopState
  returned : Bool
deriving DecidableEq, Repr

/-- Initial state of `Pipe(c1, c2)`: both loops at the start of their read
scripts, `Pipe` not yet returned. -/
def pipeInit (r1 r2 : List (List Nat × Option GoError)) : PipeState :=
  ⟨⟨r1, 0, []⟩, ⟨r2, 0, []⟩, false⟩

/-- One scheduler step of `Pipe(c1, c2)`.  `wbg` gives the write outcomes of
connection 2 (the background loop writes into it), `winl` those of
connection 1.  `choice = true` steps the background goroutine; `choice =
false` steps the inline thread, which runs its loop to completion and then
returns from `Pipe` — without any join on the background loop. -/
def pipeStep (wbg winl : Nat → Option GoError) (choice : Bool)
    (s : PipeState) : PipeState :=
  if choice then { s with bg := loopStep wbg s.bg }
  else if s.returned then s
  else if loopDone winl s.inl then { s with returned := true }
  else { s with inl := loopStep winl s.inl }

/-- Run a finite schedule of interleaved steps of the two threads. -/
def pipeSched (wbg winl : Nat → Option GoError) :
    List Bool → PipeState → PipeState
  | [], s => s
  | c :: cs, s => pipeSched wbg winl cs (pipeStep wbg winl c s)

/-- Concrete handshake packet used by the witnesses: protocol version 0, an
empty server address, port 0 and the given next-state byte (below 128). -/
def hsPacket (ns : Nat) : Packet := ⟨0, [0, 0, 0, 0, ns]⟩

/-- Concrete handshake packet with server address byte 97 and next state 2. -/
def hsPacketAddrA : Packet := ⟨0, [0, 1, 97, 0, 0, 2]⟩

/-- Fresh player connection whose stream holds exactly one handshake packet
with the given next state. -/
def freshPlayer (ns : Nat) : BasicPlayerConnection :=
  CreateBasicPlayerConnection ⟨[(hsPacket ns, none)], [], []⟩

/-- Fresh player connection whose stream holds exactly one handshake packet
with server address byte 97. -/
def freshPlayerAddrA : BasicPlayerConnection :=
  CreateBasicPlayerConnection ⟨[(hsPacketAddrA, none)], [], []⟩

/- ------------------------------------------------------------------ -/
/- Shared lemmas about the embedded operations.                        -/
/- ------------------------------------------------------------------ -/

/-- Writing a packet never touches the pending read script. -/
theorem writePacket_readScript (s : ConnState) (p : Packet) :
    ((s.writePacket p).snd).readScript = s.readScript := by
  rcases s with ⟨rs, ws, log⟩
  rcases ws with _ | ⟨w, ws⟩
  · rfl
  · rcases w with _ | e <;> rfl

/-- The result of a packet read is determined by the read script alone. -/
theorem readPacket_fst (s : ConnState) :
    s.readPacket.fst =
      match s.readScript with
      | [] => (Packet.zero, some GoError.errEOF)
      | r :: _ => r := by
  rcases s with ⟨rs, ws, log⟩
  rcases rs with _ | ⟨r, rs⟩ <;> rfl

/- ------------------------------------------------------------------ -/
/- Claim theorems.                                                     -/
/- ------------------------------------------------------------------ -/

/-- C9: `BasicServerConn.Status` discards any error from writing the status
request packet: for every underlying connection it proceeds to the read and
returns exactly what `ReadPacket` on the connection returns, so the returned
error can only come from the read and a failed write is invisible to the
caller. -/
theorem serverConn_status_error_only_from_read (c : BasicServerConn) :
    (c.Status).fst = c.conn.readPacket.fst := by
  show ((c.conn.writePacket c.statusPK).snd.readPacket).fst = c.conn.readPacket.fst
  rw [readPacket_fst, readPacket_fst, writePacket_readScript]

/-- C10: `BasicPlayerConnection.LoginStart` never returns a non-nil error;
when the underlying read fails, the error is discarded and the zero-value
packet is returned with a nil error. -/
theorem loginStart_swallows_read_error (c : BasicPlayerConnection) :
    (c.LoginStart).fst.snd = none ∧
    (∀ pkv e rest, c.conn.readScript = (pkv, some e) :: rest →
      (c.LoginStart).fst.fst = Packet.zero) := by
  constructor
  · rfl
  · intro pkv e rest hscript
    rcases c with ⟨⟨rs, ws, log⟩, hsPk, loginPk, hs, hasHS, hasHSPk⟩
    simp only at hscript
    subst hscript
    rfl

/-- Witness for C10 at a concrete connection whose single scripted read
fails: `LoginStart` returns the zero packet and a nil error. -/
theorem loginStart_swallows_read_error_witness :
    ((CreateBasicPlayerConnection
        ⟨[(⟨7, [1]⟩, some GoError.errEOF)], [], []⟩).LoginStart).fst.fst =
      Packet.zero ∧
    ((CreateBasicPlayerConnection
        ⟨[(⟨7, [1]⟩, some GoError.errEOF)], [], []⟩).LoginStart).fst.snd =
      none :=
  ⟨(loginStart_swallows_read_error _).2 ⟨7, [1]⟩ GoError.errEOF [] rfl,
   (loginStart_swallows_read_error _).1⟩

/-- C2, failing input: `WritePacket` on a `BasicPlayerConnection` is a no-op.
At the concrete packet with id 5 and payload 1, 2, 3 it reports success while
leaving the whole connection state, in particular the log of packets written
to the underlying stream, unchanged: nothing is encoded or written. -/
theorem playerConnection_writePacket_noop :
    ((CreateBasicPlayerConnection ⟨[], [], []⟩).WritePacket ⟨5, [1, 2, 3]⟩).fst
      = none ∧
    ((CreateBasicPlayerConnection ⟨[], [], []⟩).WritePacket ⟨5, [1, 2, 3]⟩).snd
      = CreateBasicPlayerConnection ⟨[], [], []⟩ ∧
    ((CreateBasicPlayerConnection ⟨[], [], []⟩).WritePacket
        ⟨5, [1, 2, 3]⟩).snd.conn.packetsWritten = [] := by
  exact ⟨rfl, rfl, rfl⟩

/-- C4, failing input: `LoginStart` has no cache check.  On a connection
whose stream yields packet id 1 and then packet id 2, the first call returns
and stores the first packet, but the second call performs another stream
read, returns the different second packet and overwrites the stored one. -/
theorem loginStart_rereads_stream :
    ((CreateBasicPlayerConnection
        ⟨[(⟨1, []⟩, none), (⟨2, []⟩, none)], [], []⟩).LoginStart).fst =
      (⟨1, []⟩, none) ∧
    ((CreateBasicPlayerConnection
        ⟨[(⟨1, []⟩, none), (⟨2, []⟩, none)], [], []⟩).LoginStart).snd.loginPk =
      ⟨1, []⟩ ∧
    (((CreateBasicPlayerConnection
        ⟨[(⟨1, []⟩, none), (⟨2, []⟩, none)], [], []⟩).LoginStart).snd.LoginStart).fst =
      (⟨2, []⟩, none) ∧
    (((CreateBasicPlayerConnection
        ⟨[(⟨1, []⟩, none), (⟨2, []⟩, none)], [], []⟩).LoginStart).snd.LoginStart).snd.conn.readScript =
      [] ∧
    (⟨2, []⟩ : Packet) ≠ ⟨1, []⟩ := by
  refine ⟨rfl, rfl, rfl, rfl, by decide⟩

/-- C5, failing input: after a successful `LoginStart` on a connection whose
stream yields a login-start packet, `Name` still fails with `ErrNoNameYet`;
the source returns that error unconditionally and never parses the name. -/
theorem name_fails_after_loginStart :
    ((CreateBasicPlayerConnection
        ⟨[(⟨0, [8, 105, 110, 102, 114, 97, 114, 101, 100]⟩, none)], [], []⟩).LoginStart).fst.snd
      = none ∧
    (((CreateBasicPlayerConnection
        ⟨[(⟨0, [8, 105, 110, 102, 114, 97, 114, 101, 100]⟩, none)], [], []⟩).LoginStart).snd.Name).fst
      = ("", some GoError.errNoNameYet) := by
  exact ⟨rfl, rfl⟩

/-- Casting a byte-sized value to int8 yields zero exactly when the value is
zero modulo 256. -/
theorem int8OfNat_eq_zero_iff (n : Nat) : int8OfNat n = 0 ↔ n % 256 = 0 := by
  unfold int8OfNat
  split <;> omega

/-- C1, counterexample: on a fresh connection whose stream holds a handshake
packet with next state 3, `ParseRequestType` returns the raw cast value 3,
which is not `UnknownRequest`; the function is a cast of `nextState`, not a
collapse of unrecognised values to `UnknownRequest`. -/
theorem parseRequestType_nextState_three_counterexample :
    (ParseRequestType (freshPlayer 3)).fst = 3 ∧
    (ParseRequestType (freshPlayer 3)).fst ≠ UnknownRequest := by
  decide

/-- C1, amended: `ParseRequestType` returns the `nextState` of the handshake
cast to the signed 8-bit `RequestType`; next state 1 gives `StatusRequest`
and 2 gives `LoginRequest`, but any other value is returned as its own cast
image, which equals `UnknownRequest` exactly when `nextState` is 0 modulo
256. -/
theorem parseRequestType_cast (c : BasicPlayerConnection) :
    (ParseRequestType c).fst = int8OfNat (c.Hs).fst.fst.nextState ∧
    ((c.Hs).fst.fst.nextState = 1 →
      (ParseRequestType c).fst = StatusRequest) ∧
    ((c.Hs).fst.fst.nextState = 2 →
      (ParseRequestType c).fst = LoginRequest) ∧
    ((ParseRequestType c).fst = UnknownRequest ↔
      (c.Hs).fst.fst.nextState % 256 = 0) := by
  refine ⟨rfl, ?_, ?_, ?_⟩
  · intro h
    show int8OfNat (c.Hs).fst.fst.nextState = StatusRequest
    rw [h]; rfl
  · intro h
    show int8OfNat (c.Hs).fst.fst.nextState = LoginRequest
    rw [h]; rfl
  · exact int8OfNat_eq_zero_iff _

/-- Witness for C1 at concrete connections: next state 1 parses to
`StatusRequest` and next state 2 to `LoginRequest`. -/
theorem parseRequestType_cast_witness :
    (ParseRequestType (freshPlayer 1)).fst = StatusRequest ∧
    (ParseRequestType (freshPlayer 2)).fst = LoginRequest := by
  constructor
  · exact (parseRequestType_cast (freshPlayer 1)).2.1 (by decide)
  · exact (parseRequestType_cast (freshPlayer 2)).2.2.1 (by decide)

/-- C3: on a freshly created player connection, a first successful `Hs`
consumes exactly one packet read from the stream, and afterwards both `Hs`
and `HsPk` return the cached values with the state, hence the stream,
untouched; likewise a first successful `HsPk` consumes exactly one read,
after which `HsPk` returns the cached packet unchanged and even a subsequent
`Hs` performs no further stream read. -/
theorem handshake_cached_after_first_success :
    (∀ (cs : ConnState) (h : ServerBoundHandshake) (c' : BasicPlayerConnection),
      (CreateBasicPlayerConnection cs).Hs = ((h, none), c') →
        c'.Hs = ((h, none), c') ∧
        c'.HsPk = ((c'.hsPk, none), c') ∧
        c'.conn.readScript = cs.readScript.tail ∧
        UnmarshalServerBoundHandshake c'.hsPk = (h, none)) ∧
    (∀ (cs : ConnState) (pk : Packet) (c2 : BasicPlayerConnection),
      (CreateBasicPlayerConnection cs).HsPk = ((pk, none), c2) →
        c2.HsPk = ((pk, none), c2) ∧
        ((c2.Hs).snd).conn = c2.conn ∧
        c2.conn.readScript = cs.readScript.tail) := by
  constructor
  · intro cs h c' hyp
    rcases cs with ⟨rs, ws, log⟩
    rcases rs with _ | ⟨⟨pk0, oe⟩, rs2⟩
    · simp [CreateBasicPlayerConnection, BasicPlayerConnection.Hs,
        BasicPlayerConnection.HsPk, BasicPlayerConnection.ReadPacket,
        ConnState.readPacket] at hyp
    · rcases oe with _ | e
      · rcases hu : UnmarshalServerBoundHandshake pk0 with ⟨hv, he⟩
        rcases he with _ | e2
        · have hq : (CreateBasicPlayerConnection
              ⟨(pk0, none) :: rs2, ws, log⟩).Hs =
              ((hv, none),
                ⟨⟨rs2, ws, log⟩, pk0, Packet.zero, hv, true, true⟩) := by
            simp [CreateBasicPlayerConnection, BasicPlayerConnection.Hs,
              BasicPlayerConnection.HsPk, BasicPlayerConnection.ReadPacket,
              ConnState.readPacket, hu]
          rw [hq] at hyp
          simp only [Prod.mk.injEq, and_true, true_and] at hyp
          obtain ⟨hh, hc⟩ := hyp
          subst hc
          subst hh
          exact ⟨rfl, rfl, rfl, hu⟩
        · simp [CreateBasicPlayerConnection, BasicPlayerConnection.Hs,
            BasicPlayerConnection.HsPk, BasicPlayerConnection.ReadPacket,
            ConnState.readPacket, hu] at hyp
      · simp [CreateBasicPlayerConnection, BasicPlayerConnection.Hs,
          BasicPlayerConnection.HsPk, BasicPlayerConnection.ReadPacket,
          ConnState.readPacket] at hyp
  · intro cs pk c2 hyp
    rcases cs with ⟨rs, ws, log⟩
    rcases rs with _ | ⟨⟨pk0, oe⟩, rs2⟩
    · simp [CreateBasicPlayerConnection, BasicPlayerConnection.HsPk,
        BasicPlayerConnection.ReadPacket, ConnState.readPacket] at hyp
    · rcases oe with _ | e
      · have hq : (CreateBasicPlayerConnection
            ⟨(pk0, none) :: rs2, ws, log⟩).HsPk =
            ((pk0, none),
              ⟨⟨rs2, ws, log⟩, pk0, Packet.zero, ServerBoundHandshake.zero,
                false, true⟩) := by
          simp [CreateBasicPlayerConnection, BasicPlayerConnection.HsPk,
            BasicPlayerConnection.ReadPacket, ConnState.readPacket]
        rw [hq] at hyp
        simp only [Prod.mk.injEq, and_true, true_and] at hyp
        obtain ⟨hh, hc⟩ := hyp
        subst hc
        subst hh
        refine ⟨rfl, ?_, rfl⟩
        rcases hu : UnmarshalServerBoundHandshake pk0 with ⟨hv, he⟩
        rcases he with _ | e2 <;>
          simp [BasicPlayerConnection.Hs, BasicPlayerConnection.HsPk, hu]
      · simp [CreateBasicPlayerConnection, BasicPlayerConnection.HsPk,
          BasicPlayerConnection.ReadPacket, ConnState.readPacket] at hyp

/-- Witness for C3 at a concrete fresh connection holding one handshake
packet with next state 2: after the first successful `Hs`, both `Hs` and
`HsPk` return the cached values with the state unchanged. -/
theorem handshake_cached_after_first_success_witness :
    (((CreateBasicPlayerConnection ⟨[(hsPacket 2, none)], [], []⟩).Hs).snd).Hs =
      ((⟨0, [], 0, 2⟩, none),
        ((CreateBasicPlayerConnection ⟨[(hsPacket 2, none)], [], []⟩).Hs).snd) ∧
    (((CreateBasicPlayerConnection ⟨[(hsPacket 2, none)], [], []⟩).Hs).snd).HsPk =
      (((((CreateBasicPlayerConnection
          ⟨[(hsPacket 2, none)], [], []⟩).Hs).snd).hsPk, none),
        ((CreateBasicPlayerConnection ⟨[(hsPacket 2, none)], [], []⟩).Hs).snd) := by
  have hmain := handshake_cached_after_first_success.1
    ⟨[(hsPacket 2, none)], [], []⟩ ⟨0, [], 0, 2⟩
    (((CreateBasicPlayerConnection ⟨[(hsPacket 2, none)], [], []⟩).Hs).snd)
    (by decide)
  exact ⟨hmain.1, hmain.2.1⟩

/-- C6: under the address-keyed registry, `FindServer` is an exact
byte-for-byte lookup of the handshake server address: after registering a
backend under a key, a connection whose handshake address equals that key
finds exactly that backend; a connection with any other address is unaffected
by the registration; an address not present in the registry yields found
false with no backend, and found is true exactly when some backend is
registered under the address. -/
theorem findServer_exact_match (st : DefaultServerStore)
    (c : BasicPlayerConnection) (k : List Nat) (s : Server) :
    ((c.Hs).fst.fst.serverAddress = k →
      (FindServer (AddServer st k s) c).fst = (some s, true)) ∧
    ((c.Hs).fst.fst.serverAddress ≠ k →
      (FindServer (AddServer st k s) c).fst = (FindServer st c).fst) ∧
    (storeLookup st (c.Hs).fst.fst.serverAddress = none →
      (FindServer st c).fst = (none, false)) ∧
    ((FindServer st c).fst.snd = true ↔
      ∃ s2, storeLookup st (c.Hs).fst.fst.serverAddress = some s2) := by
  have haddr : (ServerAddr c).fst = (c.Hs).fst.fst.serverAddress := rfl
  refine ⟨?_, ?_, ?_, ?_⟩
  · intro hk
    simp only [FindServer]
    rw [haddr, hk]
    have hl : storeLookup (AddServer st k s) k = some s := by
      simp [storeLookup, AddServer, List.find?]
    rw [hl]
  · intro hk
    simp only [FindServer]
    rw [haddr]
    have hl : storeLookup (AddServer st k s) (c.Hs).fst.fst.serverAddress =
        storeLookup st (c.Hs).fst.fst.serverAddress := by
      simp only [storeLookup, AddServer, List.find?]
      have hd : (decide (k = (c.Hs).fst.fst.serverAddress)) = false := by
        simpa using fun hkk => hk hkk.symm
      simp [hd]
    rw [hl]
  · intro hnone
    simp only [FindServer]
    rw [haddr, hnone]
  · simp only [FindServer]
    rw [haddr]
    rcases hl : storeLookup st (c.Hs).fst.fst.serverAddress with _ | s2 <;>
      simp

/-- Witness for C6 at a concrete registry and connection: registering a
backend under the one-byte address 97 makes a connection requesting that
address find it, while the empty registry reports found false for the same
connection. -/
theorem findServer_exact_match_witness :
    (FindServer (AddServer ⟨[]⟩ [97] ⟨"srvA"⟩) freshPlayerAddrA).fst =
      (some ⟨"srvA"⟩, true) ∧
    (FindServer ⟨[]⟩ freshPlayerAddrA).fst = (none, false) := by
  constructor
  · exact (findServer_exact_match ⟨[]⟩ freshPlayerAddrA [97] ⟨"srvA"⟩).1
      (by decide)
  · exact (findServer_exact_match ⟨[]⟩ freshPlayerAddrA [97] ⟨"srvA"⟩).2.2.1
      (by decide)

/-- A run of error-free reads with succeeding writes is forwarded in full,
and the loop continues on the remaining script with the write count
advanced. -/
theorem pipeRun_ok_append (werr : Nat → Option GoError)
    (pre : List (List Nat)) (rest : List (List Nat × Option GoError)) :
    ∀ j, (∀ i, i < pre.length → werr (j + i) = none) →
      pipeRun werr (pre.map (fun ch => (ch, none)) ++ rest) j =
        pre ++ pipeRun werr rest (j + pre.length) := by
  induction pre with
  | nil => intro j hw; simp [pipeRun]
  | cons ch pre ih =>
    intro j hw
    have hw0 : werr j = none := by
      have := hw 0 (by simp)
      simpa using this
    simp only [List.map_cons, List.cons_append, pipeRun, hw0, List.append_eq]
    have hrec := ih (j + 1) (fun i hi => by
      have := hw (i + 1) (by simpa using Nat.succ_lt_succ hi)
      simpa [Nat.add_assoc, Nat.add_comm 1 i] using this)
    rw [hrec]
    simp [Nat.add_assoc, Nat.add_comm 1 pre.length]

/-- A copy loop whose write fails at relative position `k` delivers exactly
the first `k` chunks. -/
theorem pipeRun_write_error (werr : Nat → Option GoError)
    (pre : List (List Nat)) (rest : List (List Nat × Option GoError)) :
    ∀ j k, k < pre.length → (∀ i, i < k → werr (j + i) = none) →
      werr (j + k) ≠ none →
      pipeRun werr (pre.map (fun ch => (ch, none)) ++ rest) j =
        pre.take k := by
  induction pre with
  | nil => intro j k hk _ _; simp at hk
  | cons ch pre ih =>
    intro j k hk hygood hbad
    rcases k with _ | k2
    · rcases hwj : werr j with _ | e
      · exact absurd (by simpa using hwj) hbad
      · simp [pipeRun, hwj]
    · have hw0 : werr j = none := by
        have := hygood 0 (by omega)
        simpa using this
      simp only [List.map_cons, List.cons_append, pipeRun, hw0, List.append_eq]
      have hrec := ih (j + 1) k2 (by simpa using Nat.lt_of_succ_lt_succ hk)
        (fun i hi => by
          have := hygood (i + 1) (by omega)
          simpa [Nat.add_assoc, Nat.add_comm 1 i] using this)
        (by
          have : j + 1 + k2 = j + (k2 + 1) := by omega
          rw [this]; exact hbad)
      rw [hrec]
      simp

/-- C7: one direction of the duplex pipe forwards every chunk it reads,
unmodified and in order, and ends at the first failing operation: if the
first `pre.length` reads succeed and their writes succeed, a then-failing
read ends the loop with exactly `pre` delivered and the rest of the stream
untouched; and if instead the write numbered `k` fails, the loop ends there
having delivered exactly the first `k` chunks. -/
theorem pipe_forwards_until_first_error :
    (∀ (pre : List (List Nat)) (c0 : List Nat) (e : GoError)
        (tail : List (List Nat × Option GoError)) (werr : Nat → Option GoError),
      (∀ i, i < pre.length → werr i = none) →
      pipeDir (pre.map (fun ch => (ch, none)) ++ (c0, some e) :: tail) werr =
        pre) ∧
    (∀ (pre : List (List Nat)) (tail : List (List Nat × Option GoError))
        (werr : Nat → Option GoError) (k : Nat) (e : GoError),
      k < pre.length → (∀ i, i < k → werr i = none) → werr k = some e →
      pipeDir (pre.map (fun ch => (ch, none)) ++ tail) werr = pre.take k) := by
  constructor
  · intro pre c0 e tail werr hw
    unfold pipeDir
    rw [pipeRun_ok_append werr pre ((c0, some e) :: tail) 0
      (fun i hi => by simpa using hw i hi)]
    simp [pipeRun]
  · intro pre tail werr k e hk hgood hbad
    unfold pipeDir
    exact pipeRun_write_error werr pre tail 0 k hk
      (fun i hi => by simpa using hgood i hi)
      (by simpa using fun hcontra => by rw [hbad] at hcontra; cases hcontra)

/-- Witness for C7 at concrete scripts: with all writes succeeding, the two
available chunks are forwarded in order up to the read failure; with the
second write failing, only the first chunk of three is forwarded. -/
theorem pipe_forwards_until_first_error_witness :
    pipeDir [([1, 2], none), ([3], none), ([], some GoError.errEOF)]
      (fun _ => none) = [[1, 2], [3]] ∧
    pipeDir [([1], none), ([2], none), ([3], none)]
      (fun i => if 1 ≤ i then some GoError.errEOF else none) = [[1]] := by
  constructor
  · exact pipe_forwards_until_first_error.1 [[1, 2], [3]] [] GoError.errEOF []
      (fun _ => none) (fun i _ => rfl)
  · exact pipe_forwards_until_first_error.2 [[1], [2], [3]] []
      (fun i => if 1 ≤ i then some GoError.errEOF else none) 1 GoError.errEOF
      (by decide) (by decide) (by decide)

/-- One scheduler step preserves the invariant that once `Pipe` has
returned, the inline loop has ended. -/
theorem pipeStep_returned_inv (wbg winl : Nat → Option GoError) (ch : Bool)
    (s : PipeState)
    (h : s.returned = true → loopDone winl s.inl = true) :
    (pipeStep wbg winl ch s).returned = true →
      loopDone winl (pipeStep wbg winl ch s).inl = true := by
  unfold pipeStep
  split
  · simpa using h
  · split
    · simpa using h
    · split
      · intro _
        simpa using ‹loopDone winl s.inl = true›
      · intro hr
        simp only at hr
        exact absurd hr (by simpa using ‹¬s.returned = true›)

/-- Any finite schedule preserves the invariant that once `Pipe` has
returned, the inline loop has ended. -/
theorem pipeSched_returned_inv (wbg winl : Nat → Option GoError) :
    ∀ (sched : List Bool) (s : PipeState),
      (s.returned = true → loopDone winl s.inl = true) →
      ((pipeSched wbg winl sched s).returned = true →
        loopDone winl (pipeSched wbg winl sched s).inl = true) := by
  intro sched
  induction sched with
  | nil => intro s h; exact h
  | cons ch cs ih =>
    intro s h
    exact ih (pipeStep wbg winl ch s) (pipeStep_returned_inv wbg winl ch s h)

/-- C8, counterexample: `Pipe` does not wait for the background copy loop.
With the background direction still holding one successful read and all
writes succeeding, the schedule that runs only the inline thread (whose
stream is already exhausted) makes the call return while the background loop
has not ended. -/
theorem pipe_returns_before_background_done :
    (pipeSched (fun _ => none) (fun _ => none) [false]
      (pipeInit [([1], none)] [])).returned = true ∧
    loopDone (fun _ => none)
      (pipeSched (fun _ => none) (fun _ => none) [false]
        (pipeInit [([1], none)] [])).bg = false := by
  exact ⟨rfl, rfl⟩

/-- C8, amended: in every interleaving, `Pipe` returns only once the inline
`c2`-to-`c1` copy loop has ended; the background `c1`-to-`c2` loop runs
concurrently but is not joined, so the return does not wait for it. -/
theorem pipe_returns_only_after_inline_loop
    (wbg winl : Nat → Option GoError) (sched : List Bool)
    (r1 r2 : List (List Nat × Option GoError)) :
    (pipeSched wbg winl sched (pipeInit r1 r2)).returned = true →
      loopDone winl (pipeSched wbg winl sched (pipeInit r1 r2)).inl = true := by
  exact pipeSched_returned_inv wbg winl sched (pipeInit r1 r2)
    (fun hfalse => by simp [pipeInit] at hfalse)

/-- Witness for C8 at a concrete run: the schedule stepping the inline
thread once on an exhausted inline stream makes `Pipe` return, and the
inline loop has indeed ended at that point. -/
theorem pipe_returns_only_after_inline_loop_witness :
    loopDone (fun _ => none)
      (pipeSched (fun _ => none) (fun _ => none) [false]
        (pipeInit [([1], none)] [])).inl = true := by
  exact pipe_returns_only_after_inline_loop (fun _ => none) (fun _ => none)
    [false] [([1], none)] [] rfl

end Infrared
